import Mathlib

/-
Verification development for the reference-documentation generator
(`generate_reference.py`).  The Python code is shallowly embedded: strings
are Lean `String`s, all Python `str` operations are re-implemented on the
underlying character lists (so that everything evaluates in the kernel),
the filesystem is an explicit tree, and the ambient Python import
machinery is an explicit environment record.  Fallible code returns
`Except String`.
-/

/-! ### Python string primitives (character-list semantics) -/

/-- Python `s.startswith(p)`. -/
def py_startswith (s p : String) : Bool :=
  p.data.isPrefixOf s.data

/-- Python `s.endswith(p)`. -/
def py_endswith (s p : String) : Bool :=
  p.data.isSuffixOf s.data

/-- Python `s.split(sep)` for a one-character separator (the only kind the
source uses: `"."` and `os.path.sep`). -/
def splitChars (sep : Char) : List Char → List (List Char)
  | [] => [[]]
  | c :: cs =>
    let r := splitChars sep cs
    if c = sep then [] :: r
    else
      match r with
      | [] => [[c]]
      | h :: t => (c :: h) :: t

def pysplit (sep : Char) (s : String) : List String :=
  (splitChars sep s.data).map (fun l => String.mk l)

/-- Python `sep.join(parts)`. -/
def pyjoin (sep : String) (l : List String) : String :=
  match l with
  | [] => ""
  | h :: t => t.foldl (fun acc x => acc ++ sep ++ x) h

/-- Python `s.lstrip(os.path.sep)`: drop the leading separator characters. -/
def py_lstrip_sep (s : String) : String :=
  String.mk (s.data.dropWhile (fun c => c == '/'))

/-- Python `s[n:]` (slicing off the first `n` characters). -/
def py_drop (s : String) (n : Nat) : String :=
  String.mk (s.data.drop n)

/-- Python `len(s)`. -/
def py_len (s : String) : Nat := s.data.length

/-- Python `s.replace(os.path.sep, ".")`: both arguments are single
characters, so the replacement is a character map. -/
def py_replace_sep_dot (s : String) : String :=
  String.mk (s.data.map (fun c => if c == '/' then '.' else c))

/-- Lexicographic (code-point) comparison of character lists, matching
Python's `<=` on strings. -/
def charsLe : List Char → List Char → Bool
  | [], _ => true
  | _ :: _, [] => false
  | a :: as, b :: bs => if a == b then charsLe as bs else decide (a.toNat < b.toNat)

def py_le (a b : String) : Bool := charsLe a.data b.data

/-- Insertion step of a stable ascending sort (Python `sorted`). -/
def insertSorted (x : String) : List String → List String
  | [] => [x]
  | y :: ys => if py_le x y then x :: y :: ys else y :: insertSorted x ys

/-- Python `sorted` on a list of strings. -/
def sortStr (l : List String) : List String := l.foldr insertSorted []

/-- Index of the last occurrence of a character. -/
def lastIdxOf (c : Char) : List Char → Option Nat
  | [] => none
  | a :: as =>
    match lastIdxOf c as with
    | some i => some (i + 1)
    | none => if a == c then some 0 else none

/-! ### `os.path` (posix) primitives used by the source -/

def pathSep : String := "/"

/-- `posixpath.isabs`. -/
def isabs (p : String) : Bool := py_startswith p "/"

/-- `posixpath.join` for two arguments. -/
def pjoin (a b : String) : String :=
  if py_startswith b "/" then b
  else if a = "" ∨ py_endswith a "/" then a ++ b
  else a ++ "/" ++ b

/-- `posixpath.normpath`. -/
def normpath (p : String) : String :=
  if p = "" then "."
  else
    let initial_slashes : Nat :=
      if py_startswith p "/" then
        if py_startswith p "//" ∧ ¬ py_startswith p "///" then 2 else 1
      else 0
    let comps := pysplit '/' p
    let new_comps := comps.foldl (fun acc comp =>
      if comp = "" ∨ comp = "." then acc
      else if comp ≠ ".." ∨ (initial_slashes = 0 ∧ acc = []) ∨ (acc.getLastD "" = "..") then
        acc ++ [comp]
      else if acc ≠ [] then acc.dropLast
      else acc) []
    let joined := pyjoin "/" new_comps
    let res := String.mk (List.replicate initial_slashes '/') ++ joined
    if res = "" then "." else res

/-- `posixpath.abspath` with an explicit current working directory. -/
def abspath (cwd p : String) : String :=
  if isabs p then normpath p else normpath (pjoin cwd p)

/-- `posixpath.split(p)[-1]` (the tail component). -/
def path_split_tail (p : String) : String :=
  (pysplit '/' p).getLastD ""

/-- `posixpath.splitext`. -/
def splitext (p : String) : String × String :=
  let cs := p.data
  match lastIdxOf '.' cs with
  | none => (p, "")
  | some di =>
    let fi : Nat :=
      match lastIdxOf '/' cs with
      | none => 0
      | some si => si + 1
    if fi ≤ di ∧ ((cs.drop fi).take (di - fi)).any (fun ch => ch != '.') then
      (String.mk (cs.take di), String.mk (cs.drop di))
    else (p, "")

/-! ### The Python runtime environment seen by the generator

The generator inspects live Python modules (`__import__`, `dir`,
`__module__`) and file sizes (`os.path.getsize`).  These ambient
capabilities are modelled as an explicit record.  `auto_find_examples`
lives in the sibling `examplefinder` module, which is not part of the
sources under verification; its output is an opaque text keyed by the
member name (`autoExamples`). -/

/-- Result of `__import__(pfx, fromlist=[name])` followed by
`getattr(result, name, None)`: the import can raise `ImportError`, the
attribute can be missing (`None`), or an object with an optional
`__module__` attribute is obtained. -/
inductive FetchRes where
  | importError
  | absent
  | found (modAttr : Option String)
deriving DecidableEq, Repr

/-- Kind of a bound member as classified by `inspect.isclass` /
`inspect.isfunction` / everything else. -/
inductive MKind where
  | cls
  | fn
  | other
deriving DecidableEq, Repr

/-- One name bound in a module: its name, its `__module__` attribute
(`none` when the object has no such attribute), and its `inspect` kind. -/
structure MemberInfo where
  name : String
  modAttr : Option String
  kind : MKind
deriving DecidableEq, Repr

/-- The ambient Python/OS world: `dirMembers n` is the member listing of
module `n` after `__import__(n)` (`none` = `ImportError`); `fetch p s`
is the result of importing `p` and fetching attribute `s` from it;
`getsize` is `os.path.getsize`; `autoExamples` stands for
`examplefinder.auto_find_examples`. -/
structure PyEnv where
  dirMembers : String → Option (List MemberInfo)
  fetch : String → String → FetchRes
  getsize : String → Nat
  autoExamples : String → String

/-! ### Sequencing helpers for fallible loops

`mapExcept` is a Python `for` loop collecting one result per element and
propagating the first raised exception; `foldExcept` is a `for` loop over
an accumulator. -/

deriving instance DecidableEq for Except

def mapExcept {α β : Type} (f : α → Except String β) : List α → Except String (List β)
  | [] => .ok []
  | a :: as =>
    match f a with
    | .error e => .error e
    | .ok b =>
      match mapExcept f as with
      | .error e => .error e
      | .ok bs => .ok (b :: bs)

def foldExcept {σ α : Type} (f : σ → α → Except String σ) : σ → List α → Except String σ
  | s, [] => .ok s
  | s, a :: as =>
    match f s a with
    | .error e => .error e
    | .ok s2 => foldExcept f s2 as

/-! ### The embedded source (`generate_reference.py`) -/

def INITPY : String := "__init__.py"

def OPTIONS : List String := ["show-inheritance"]

/-- `makename(package, module)`: join package and module with a dot.
Python `None` and the empty string are both falsy; they are represented
uniformly by `""`. -/
def makename (package module : String) : String :=
  if package ≠ "" then
    if module ≠ "" then package ++ "." ++ module else package
  else module

/-- `format_heading(level, text)`. -/
def format_heading (level : Nat) (text : String) : String :=
  let ch := (["=", "-", "~"].getD (level - 1) "")
  text ++ "\n" ++ String.join (List.replicate (py_len text) ch) ++ "\n\n"

/-- The acceptance test inside `find_shortest_import`'s loop:
`result_obj is not None and getattr(result_obj, "__module__", None) == module_name`. -/
def fetch_ok (r : FetchRes) (module_name : String) : Bool :=
  match r with
  | .found a => a == some module_name
  | _ => false

/-- `find_shortest_import(module_name, obj_name)`: scan the dotted
prefixes of `module_name` from length 1 upward; return the first one from
which fetching `obj_name` yields an object whose `__module__` equals
`module_name`; otherwise raise. -/
def find_shortest_import (fetch : String → String → FetchRes)
    (module_name obj_name : String) : Except String String :=
  let parts := pysplit '.' module_name
  let pfxs := (List.range parts.length).map (fun i => pyjoin "." (parts.take (i + 1)))
  match pfxs.find? (fun p => fetch_ok (fetch p obj_name) module_name) with
  | some p => .ok p
  | none => .error ("Couldn\x27t import " ++ module_name ++ "." ++ obj_name)

/-- The dotted path of the first `k` segments of `module_name` (used to
state properties of `find_shortest_import`). -/
def dotted_take (module_name : String) (k : Nat) : String :=
  pyjoin "." ((pysplit '.' module_name).take k)

/-- `create_member_file(module_name, member, member_obj, destdir)`:
returns the written file as a `(dotted-name, text)` pair (the constant
`destdir`/`suffix` plumbing is omitted from the model). -/
def create_member_file (env : PyEnv) (module_name : String) (m : MemberInfo) :
    Except String (String × String) :=
  let text := ".. currentmodule:: " ++ module_name ++ "\n\n"
  match find_shortest_import env.fetch module_name m.name with
  | .error e => .error e
  | .ok shortest_import =>
    let import_text :=
      "(*Shortest import*: ``from " ++ shortest_import ++ " import " ++ m.name ++ ")``\n\n"
    let body :=
      match m.kind with
      | .cls =>
        format_heading 1 (m.name ++ " class") ++ import_text
          ++ ".. autoclass:: " ++ m.name ++ "\n\n" ++ env.autoExamples m.name
      | .fn =>
        format_heading 1 (m.name ++ " function") ++ import_text
          ++ ".. autofunction:: " ++ m.name ++ "\n\n"
      | .other =>
        format_heading 1 (m.name ++ " object") ++ import_text
          ++ ".. autodata:: " ++ m.name ++ "\n"
    .ok (makename module_name m.name, text ++ body)

/-- `format_directive(module, destdir, package, basename="brian2")`:
returns the directive text together with the member files written along
the way.  Member retention (`member_module == full_name and not
member.startswith("_")`) and the class/function/object bucketing follow
the source loop. -/
def format_directive (env : PyEnv) (module : String) (package : String)
    (basename : String := "brian2") :
    Except String (String × List (String × String)) :=
  let directive := ".. automodule:: " ++ makename package module ++ "\n"
    ++ String.join (OPTIONS.map (fun o => "    :" ++ o ++ ":\n")) ++ "\n"
  let full_name := basename ++ "." ++ module
  match env.dirMembers full_name with
  | none => .error ("No module named " ++ full_name)
  | some dir_members =>
    let retained := dir_members.filter (fun m =>
      m.modAttr == some full_name && !(py_startswith m.name "_"))
    let classes := retained.filter (fun m => m.kind == MKind.cls)
    let functions := retained.filter (fun m => m.kind == MKind.fn)
    let objs := retained.filter (fun m => m.kind == MKind.other)
    let section_for := fun (title : String) (l : List MemberInfo) =>
      if l ≠ [] then
        "**" ++ title ++ "**\n\n"
          ++ String.join (l.map (fun m => ".. autosummary:: " ++ m.name ++ "\n    :toctree:\n\n"))
      else ""
    match mapExcept (create_member_file env full_name) classes with
    | .error e => .error e
    | .ok cws =>
      match mapExcept (create_member_file env full_name) functions with
      | .error e => .error e
      | .ok fws =>
        match mapExcept (create_member_file env full_name) objs with
        | .error e => .error e
        | .ok vws =>
          .ok (directive ++ section_for "Classes" classes
                ++ section_for "Functions" functions
                ++ section_for "Objects" objs,
               cws ++ fws ++ vws)

/-- `shall_skip(module)`: skip a module file whose size is at most 2
bytes. -/
def shall_skip (getsize : String → Nat) (module : String) : Bool :=
  getsize module ≤ 2

/-- `is_excluded(root, excludes)`: append a trailing separator when
absent, then test string-prefix membership against every rule. -/
def is_excluded (root : String) (excludes : List String) : Bool :=
  let root := if ¬ py_endswith root pathSep then root ++ pathSep else root
  excludes.any (fun exclude => py_startswith root exclude)

/-- `normalize_excludes(rootpath, excludes)`: each rule is joined with
`rootpath` when it is neither absolute nor already rooted there,
canonicalized with `normpath`, and given a trailing separator. -/
def normalize_excludes (rootpath : String) (excludes : List String) : List String :=
  excludes.map (fun exclude =>
    let exclude :=
      if ¬ isabs exclude ∧ ¬ py_startswith exclude rootpath then pjoin rootpath exclude
      else exclude
    normpath exclude ++ pathSep)

/-- `create_package_file(root, master_package, subroot, py_files, subs,
destdir, excludes)`: returns, in order, every file written (member stub
files first, the package page itself last), each as a `(name, text)`
pair.  `isfile` answers the `path.isfile(path.join(root, sub, INITPY))`
queries. -/
def create_package_file (env : PyEnv) (root master_package subroot : String)
    (py_files subs : List String) (excludes : List String)
    (isfile : String → Bool) :
    Except String (List (String × String)) :=
  let package := path_split_tail root
  let init : String × List (String × String) :=
    (format_heading 1 (package ++ " package"), [])
  match foldExcept (fun acc py_file =>
      if shall_skip env.getsize (pjoin root py_file) then .ok acc
      else
        let is_package := py_file == INITPY
        let py_file := (splitext py_file).1
        let py_path := makename subroot py_file
        let heading :=
          if ¬ is_package then format_heading 2 (":mod:`" ++ py_file ++ "` module") else ""
        match format_directive env
            (if is_package && subroot != "" then subroot else py_path) master_package with
        | .error e => .error e
        | .ok (dirText, mws) => .ok (acc.1 ++ heading ++ dirText ++ "\n", acc.2 ++ mws))
      init py_files with
  | .error e => .error e
  | .ok (text, writes) =>
    let subs := subs.filter (fun sub => isfile (pjoin (pjoin root sub) INITPY))
    let text :=
      if subs ≠ [] then
        text ++ format_heading 2 "Subpackages" ++ ".. toctree::\n" ++ "    :maxdepth: 2\n\n"
          ++ String.join (subs.map (fun sub =>
               if ¬ is_excluded (pjoin root sub) excludes then
                 "    " ++ makename master_package subroot ++ "." ++ sub ++ "\n"
               else ""))
          ++ "\n"
      else text
    .ok (writes ++ [(makename master_package subroot, text)])

/-! ### The filesystem and `recurse_tree` (`os.walk`) -/

mutual
/-- A directory: its name, the names of its plain files, and its
subdirectories (a mutually inductive forest, so that all recursions stay
structural and computable).  File sizes are answered by `PyEnv.getsize`
on full paths, mirroring the `os.listdir`/`os.path.getsize` API split. -/
inductive FsTree where
  | node : String → List String → FsForest → FsTree
/-- A list of sibling directories. -/
inductive FsForest where
  | nil : FsForest
  | cons : FsTree → FsForest → FsForest
end

def FsTree.name : FsTree → String
  | .node n _ _ => n

def FsTree.files : FsTree → List String
  | .node _ fs _ => fs

def FsForest.toList : FsForest → List FsTree
  | .nil => []
  | .cons t r => t :: r.toList

def FsTree.subs : FsTree → List FsTree
  | .node _ _ s => s.toList

mutual
/-- Number of directories in the tree (a bound used as recursion fuel). -/
def FsTree.size : FsTree → Nat
  | .node _ _ subs => subs.size + 1
def FsForest.size : FsForest → Nat
  | .nil => 0
  | .cons t rest => t.size + rest.size + 1
end

/-- `os.listdir` on a directory (files and subdirectories). -/
def listdir (t : FsTree) : List String :=
  t.files ++ t.subs.map FsTree.name

/-- The `py_files` computation of `recurse_tree`:
`sorted([f for f in files if path.splitext(f)[1] == ".py" and not f in exclude_files])`. -/
def py_files_of (files exclude_files : List String) : List String :=
  sortStr (files.filter (fun f => (splitext f).2 == ".py" && !(exclude_files.contains f)))

/-- The hidden/private directory filter of `recurse_tree`:
`sub[0] not in [".", "_"]`. -/
def good_sub (s : String) : Bool :=
  !(py_startswith s "." || py_startswith s "_")

/-- `subs[:] = sorted(sub for sub in subs if sub[0] not in [".", "_"])`. -/
def kid_names_of (subs : List FsTree) : List String :=
  sortStr ((subs.map FsTree.name).filter good_sub)

/-- The `path.isfile(path.join(root, sub, INITPY))` oracle for the
children of the directory at `curPath`. -/
def isfile_of (curPath : String) (subs : List FsTree) : String → Bool :=
  fun p => subs.any (fun c =>
    (pjoin (pjoin curPath c.name) INITPY == p) && c.files.contains INITPY)

/-- Walk, in order, the children of the directory at `curPath` whose
names survived in the (sorted, filtered) `names` list, recursing via
`walkChild`. -/
def walkNamesF
    (walkChild : String → FsTree → Except String (List String × List (String × String)))
    (curPath : String) (subs : List FsTree) :
    List String → Except String (List String × List (String × String))
  | [] => .ok ([], [])
  | n :: rest =>
    match subs.find? (fun c => c.name == n) with
    | none => walkNamesF walkChild curPath subs rest
    | some c =>
      match walkChild (pjoin curPath n) c with
      | .error e => .error e
      | .ok (ts, ws) =>
        match walkNamesF walkChild curPath subs rest with
        | .error e => .error e
        | .ok (ts2, ws2) => .ok (ts ++ ts2, ws ++ ws2)

/-- One iteration of the `os.walk` loop body of `recurse_tree` at the
directory `t` (whose full path is `curPath`), together with the walk of
its surviving subtree.  Returns the `toplevels` entries and the files
written, in traversal order; an uncaught exception aborts the whole
walk.  The `fuel` argument is only a structural-termination device: the
entry point `walk` supplies `sizeOf t`, which strictly dominates the
tree depth, so the out-of-fuel branch is unreachable. -/
def walkF : Nat → PyEnv → String → String → List String → List String → String → FsTree →
    Except String (List String × List (String × String))
  | 0, _, _, _, _, _, _, _ => .error "maximum recursion depth exceeded"
  | fuel + 1, env, rootpath, root_package, exclude_dirs, exclude_files, curPath, t =>
    match t with
    | .node _ files subs =>
      if is_excluded curPath exclude_dirs then .ok ([], [])
      else
        let py_files := py_files_of files exclude_files
        let is_pkg := py_files.contains INITPY
        let py_files := if is_pkg then INITPY :: py_files.erase INITPY else py_files
        if ¬ is_pkg ∧ curPath ≠ rootpath then .ok ([], [])
        else
          let kidNames := kid_names_of subs.toList
          let walkChild := fun (p : String) (c : FsTree) =>
            walkF fuel env rootpath root_package exclude_dirs exclude_files p c
          if is_pkg then
            if kidNames ≠ [] ∨ 1 < py_files.length ∨
                ¬ shall_skip env.getsize (pjoin curPath INITPY) then
              let subpackage :=
                py_replace_sep_dot (py_lstrip_sep (py_drop curPath (py_len rootpath)))
              match create_package_file env curPath root_package subpackage py_files kidNames
                  exclude_dirs (isfile_of curPath subs.toList) with
              | .error e => .error e
              | .ok ws =>
                match walkNamesF walkChild curPath subs.toList kidNames with
                | .error e => .error e
                | .ok (ts, cws) => .ok (makename root_package subpackage :: ts, ws ++ cws)
            else
              walkNamesF walkChild curPath subs.toList kidNames
          else
            .error "Expected it to be a package"

/-- The walk of the directory tree `t` sitting at `curPath`. -/
def walk (env : PyEnv) (rootpath root_package : String)
    (exclude_dirs exclude_files : List String) (curPath : String) (t : FsTree) :
    Except String (List String × List (String × String)) :=
  walkF t.size env rootpath root_package exclude_dirs exclude_files curPath t

/-- `recurse_tree(rootpath, exclude_dirs, exclude_files, destdir)`:
normalize the root path, decide whether the root itself is a package
(its dotted name is `""` when not), and walk the tree.  `fs = none`
models a missing / unreadable root path (`os.listdir` raises). -/
def recurse_tree (env : PyEnv) (fs : Option FsTree) (cwd rootpath : String)
    (exclude_dirs exclude_files : List String) :
    Except String (List String × List (String × String)) :=
  let rootpath := normpath (abspath cwd rootpath)
  match fs with
  | none => .error ("No such file or directory: " ++ rootpath)
  | some t =>
    let root_package :=
      if (listdir t).contains INITPY then (pysplit '/' rootpath).getLastD "" else ""
    walk env rootpath root_package exclude_dirs exclude_files rootpath t

/-- Outcome of `main`: whether the destination directory was created
(`os.makedirs` runs first, unconditionally, whenever the directory does
not yet exist), and the outcome of the generation itself. -/
structure MainResult where
  madeDestdir : Bool
  result : Except String (List String × List (String × String))

/-- `main(rootpath, exclude_dirs, exclude_files, destdir)` (Lean reserves
the name `main`): create the destination directory if absent, then
normalize the exclusion rules against the *raw* root path and run
`recurse_tree`. -/
def main_entry (env : PyEnv) (fs : Option FsTree) (cwd rootpath : String)
    (exclude_dirs exclude_files : List String) (destdir_exists : Bool) : MainResult :=
  { madeDestdir := !destdir_exists
    result := recurse_tree env fs cwd rootpath
      (normalize_excludes rootpath exclude_dirs) exclude_files }

/-! ### Generic lemmas -/

/-- `find?` returns the element at the first index where the predicate
holds. -/
theorem find?_first (p : String → Bool) :
    ∀ (l : List String) (j : Nat), j < l.length →
      (∀ i, i < j → p (l.getD i "") = false) →
      p (l.getD j "") = true →
      l.find? p = some (l.getD j "")
  | [], j, hj, _, _ => absurd hj (by simp)
  | a :: tl, 0, _, _, h2 => by
    simp only [List.getD] at h2 ⊢
    simp only [List.find?]
    simp_all
  | a :: tl, j + 1, hj, h1, h2 => by
    have ha : p a = false := by
      have := h1 0 (Nat.succ_pos j)
      simpa using this
    have htl := find?_first p tl j (by simpa using hj)
      (fun i hi => by simpa using h1 (i + 1) (by omega)) (by simpa using h2)
    simp only [List.find?, ha]
    simpa using htl

/-! ### Claim C1 -/

/-- **C1.** For every symbol `S` whose true-origin attribute is module
`M` at dotted depth `d`, if `S` is retrievable with true-origin `M` from
every dotted prefix of `M` of depth `k` through `d` and from no prefix
shallower than `k`, then `find_shortest_import M S` returns exactly the
dotted prefix of `M` of depth `k` — the first (shallowest) prefix,
scanned from length 1 upward, whose fetched object's true-origin equals
`M`. -/
theorem C1_find_shortest_import_shallowest
    (fetch : String → String → FetchRes) (M S : String) (k : Nat)
    (hk1 : 1 ≤ k) (hkd : k ≤ (pysplit '.' M).length)
    (hacc : ∀ i, i < (pysplit '.' M).length →
      (fetch_ok (fetch (dotted_take M (i + 1)) S) M = true ↔ k ≤ i + 1)) :
    find_shortest_import fetch M S = .ok (dotted_take M k) := by
  unfold find_shortest_import
  dsimp only
  have hget : ∀ i, i < (pysplit '.' M).length →
      ((List.range (pysplit '.' M).length).map
        (fun i => pyjoin "." ((pysplit '.' M).take (i + 1)))).getD i "" = dotted_take M (i + 1) := by
    intro i hi
    rw [List.getD_eq_getElem?_getD]
    simp [List.getElem?_map, List.getElem?_range, hi, dotted_take]
  have hfind := find?_first (fun p => fetch_ok (fetch p S) M)
    ((List.range (pysplit '.' M).length).map
      (fun i => pyjoin "." ((pysplit '.' M).take (i + 1))))
    (k - 1) (by simp; omega)
    (fun i hi => by
      rw [hget i (by omega)]
      have hi2 := hacc i (by omega)
      rcases Bool.eq_false_or_eq_true (fetch_ok (fetch (dotted_take M (i + 1)) S) M) with h | h
      · exact absurd (hi2.mp h) (by omega)
      · exact h)
    (by
      rw [hget (k - 1) (by omega)]
      exact (hacc (k - 1) (by omega)).mpr (by omega))
  rw [hfind, hget (k - 1) (by omega)]
  have hk : k - 1 + 1 = k := by omega
  rw [hk]

/-- A concrete fetch oracle: `x` is defined in `a.b.c` and re-exported
from `a.b`, but not from `a`. -/
def fetch_c1 : String → String → FetchRes := fun p _ =>
  if p == "a.b" || p == "a.b.c" then .found (some "a.b.c") else .importError

theorem C1_witness :
    (1 ≤ 2 ∧ 2 ≤ (pysplit '.' "a.b.c").length ∧
      (∀ i, i < (pysplit '.' "a.b.c").length →
        (fetch_ok (fetch_c1 (dotted_take "a.b.c" (i + 1)) "x") "a.b.c" = true ↔ 2 ≤ i + 1))) ∧
    find_shortest_import fetch_c1 "a.b.c" "x" = .ok (dotted_take "a.b.c" 2) :=
  ⟨⟨by decide, by decide, by decide⟩,
   C1_find_shortest_import_shallowest fetch_c1 "a.b.c" "x" 2 (by decide) (by decide) (by decide)⟩

/-! ### Claim C2 -/

/-- **C2.** For every module name `M` and symbol name `S`: if no dotted
prefix of `M` (the full path included) yields on load-and-fetch an
object whose true-origin equals `M`, then `find_shortest_import M S`
raises (`AssertionError`); it never falls back to returning the full
path or any other value. -/
theorem C2_find_shortest_import_error
    (fetch : String → String → FetchRes) (M S : String)
    (hfail : ∀ i, i < (pysplit '.' M).length →
       fetch_ok (fetch (dotted_take M (i + 1)) S) M = false) :
    find_shortest_import fetch M S = .error ("Couldn\x27t import " ++ M ++ "." ++ S) := by
  unfold find_shortest_import
  dsimp only
  have hnone : List.find? (fun p => fetch_ok (fetch p S) M)
      (List.map (fun i => pyjoin "." (List.take (i + 1) (pysplit '.' M)))
        (List.range (pysplit '.' M).length)) = none := by
    rw [List.find?_eq_none]
    intro x hx
    rcases List.mem_map.mp hx with ⟨i, hi, rfl⟩
    have hi2 : i < (pysplit '.' M).length := List.mem_range.mp hi
    simpa [dotted_take] using hfail i hi2
  rw [hnone]

theorem C2_witness :
    (∀ i, i < (pysplit '.' "a.b").length →
      fetch_ok ((fun _ _ => FetchRes.importError) (dotted_take "a.b" (i + 1)) "x") "a.b" = false) ∧
    find_shortest_import (fun _ _ => FetchRes.importError) "a.b" "x" =
      .error ("Couldn\x27t import " ++ "a.b" ++ "." ++ "x") :=
  ⟨by decide, C2_find_shortest_import_error (fun _ _ => FetchRes.importError) "a.b" "x" (by decide)⟩

/-! ### Claim C3 -/

/-- **C3.** For every set of raw exclusion rules normalized by
`normalize_excludes rootpath excludes` and every candidate directory
path `C`: `is_excluded C normalized` is true iff `C`, with a trailing
separator appended when absent, extends (as a string prefix) some
normalized rule; every normalized rule is terminated by a separator (it
is the canonicalized absolute rule followed by `pathSep`); in
particular a rule `foo` never excludes the sibling directory
`foobar`. -/
theorem C3_is_excluded_iff (rootpath : String) (excludes : List String) (C : String) :
    (is_excluded C (normalize_excludes rootpath excludes) = true ↔
      ∃ e ∈ normalize_excludes rootpath excludes,
        py_startswith (if ¬ py_endswith C pathSep then C ++ pathSep else C) e = true) ∧
    (∀ e ∈ normalize_excludes rootpath excludes, ∃ x, e = x ++ pathSep) ∧
    is_excluded (pjoin "/r" "foobar") (normalize_excludes "/r" ["foo"]) = false := by
  refine ⟨?_, ?_, by decide⟩
  · simp only [is_excluded, List.any_eq_true]
  · intro e he
    rcases List.mem_map.mp he with ⟨x, _, rfl⟩
    exact ⟨_, rfl⟩

theorem C3_witness :
    is_excluded "/r/foo/sub" (normalize_excludes "/r" ["foo"]) = true :=
  (C3_is_excluded_iff "/r" ["foo"] "/r/foo/sub").1.mpr ⟨"/r/foo/", by decide, by decide⟩

/-! ### More helper lemmas -/

theorem mem_insertSorted (x a : String) :
    ∀ l : List String, a ∈ insertSorted x l ↔ a = x ∨ a ∈ l
  | [] => by simp [insertSorted]
  | y :: ys => by
    simp only [insertSorted]
    by_cases h : py_le x y = true
    · rw [if_pos h]
      simp only [List.mem_cons]
    · rw [if_neg h]
      simp only [List.mem_cons, mem_insertSorted x a ys]
      tauto

theorem mem_sortStr (a : String) :
    ∀ l : List String, a ∈ sortStr l ↔ a ∈ l
  | [] => Iff.rfl
  | b :: l => by
    have hs : sortStr (b :: l) = insertSorted b (sortStr l) := rfl
    rw [hs, mem_insertSorted, mem_sortStr a l]
    simp

/-- Loop steps guarded by `if q a then .ok acc` are exactly a filter of
the iterated list. -/
theorem foldExcept_skip {σ α : Type} (q : α → Bool) (g : σ → α → Except String σ) :
    ∀ (l : List α) (s : σ),
      foldExcept (fun acc a => if q a then .ok acc else g acc a) s l =
        foldExcept (fun acc a => if q a then .ok acc else g acc a) s
          (l.filter (fun a => !q a))
  | [], s => rfl
  | a :: l, s => by
    by_cases h : q a = true
    · simp only [foldExcept, List.filter_cons, h, if_true, Bool.not_true]
      simp only [Bool.false_eq_true, if_false]
      exact foldExcept_skip q g l s
    · have h2 : q a = false := by revert h; cases q a <;> simp
      cases hg : g s a with
      | error e => simp [foldExcept, h2, hg, List.filter_cons]
      | ok s2 =>
        simp only [foldExcept, List.filter_cons, h2, Bool.false_eq_true, if_false, hg,
          Bool.not_false, if_true]
        exact foldExcept_skip q g l s2

/-! ### Claim C10 -/

/-- **C10.** The size-at-most-2-bytes skip test is applied to every
module file of a package, not only the marker file: building a package
page from `py_files` is identical to building it from `py_files` with
all size-≤-2 files removed, so a tiny module contributes no heading, no
automodule block and no member stubs, while its larger siblings are
documented unchanged. -/
theorem C10_shall_skip_every_module
    (env : PyEnv) (root master_package subroot : String)
    (py_files subs : List String) (excludes : List String) (isfile : String → Bool) :
    create_package_file env root master_package subroot py_files subs excludes isfile =
      create_package_file env root master_package subroot
        (py_files.filter (fun f => !(shall_skip env.getsize (pjoin root f)))) subs excludes
        isfile := by
  unfold create_package_file
  dsimp only
  rw [foldExcept_skip (fun py_file => shall_skip env.getsize (pjoin root py_file))]

/-! ### Claim C5 -/

/-- **C5.** Every directory other than the traversal root that does not
contain the package-marker file `__init__.py` is pruned together with
its entire subtree: the walk contributes no package page, no symbol
stub and no toplevel entry from it, even when it contains `.py`
files. -/
theorem C5_nonpackage_subtree_pruned
    (env : PyEnv) (rootpath root_package : String)
    (exclude_dirs exclude_files : List String) (curPath : String)
    (nm : String) (files : List String) (subs : FsForest)
    (hroot : curPath ≠ rootpath)
    (hinit : ¬ files.contains INITPY) :
    walk env rootpath root_package exclude_dirs exclude_files curPath (.node nm files subs) =
      .ok ([], []) := by
  have h0 : walk env rootpath root_package exclude_dirs exclude_files curPath
      (.node nm files subs) =
    walkF (FsForest.size subs + 1) env rootpath root_package exclude_dirs exclude_files curPath
      (.node nm files subs) := rfl
  rw [h0]
  unfold walkF
  dsimp only
  by_cases hex : is_excluded curPath exclude_dirs = true
  · rw [if_pos hex]
  · rw [if_neg hex]
    have hpkg : (py_files_of files exclude_files).contains INITPY = false := by
      rw [Bool.eq_false_iff]
      intro hc
      have hmem := List.elem_iff.mp hc
      rw [py_files_of, mem_sortStr] at hmem
      have hf := List.mem_of_mem_filter hmem
      exact hinit (List.elem_iff.mpr hf)
    rw [hpkg]
    simp only [Bool.false_eq_true, if_false]
    rw [if_pos ⟨by simp, hroot⟩]

/-- A Python/OS environment with no importable members and every file 10
bytes large. -/
def envTrivial : PyEnv :=
  { dirMembers := fun _ => some []
    fetch := fun _ _ => .importError
    getsize := fun _ => 10
    autoExamples := fun _ => "" }

theorem C5_witness :
    (("/r/sub" : String) ≠ "/r") ∧ (¬ (["m.py"] : List String).contains INITPY) ∧
      walk envTrivial "/r" "r" [] [] "/r/sub" (.node "sub" ["m.py"] .nil) = .ok ([], []) :=
  ⟨by decide, by decide,
   C5_nonpackage_subtree_pruned envTrivial "/r" "r" [] [] "/r/sub" "sub" ["m.py"] .nil
     (by decide) (by decide)⟩

/-! ### Claim C8 -/

/-- **C8.** If the root directory itself does not contain the
package-marker file `__init__.py` (and is not itself excluded, so that
its entry is actually processed), the traversal raises the assertion
error "Expected it to be a package" at the root entry instead of
walking on and documenting packages beneath a plain root directory: the
whole run aborts with that error and nothing is emitted. -/
theorem C8_root_not_package_asserts
    (env : PyEnv) (cwd rootpath : String) (exclude_dirs exclude_files : List String)
    (nm : String) (files : List String) (subs : FsForest)
    (hex : ¬ is_excluded (normpath (abspath cwd rootpath)) exclude_dirs = true)
    (hinit : ¬ files.contains INITPY) :
    recurse_tree env (some (.node nm files subs)) cwd rootpath exclude_dirs exclude_files =
      .error "Expected it to be a package" := by
  unfold recurse_tree
  dsimp only
  have h0 : ∀ rp, walk env rp
      (if (listdir (FsTree.node nm files subs)).contains INITPY = true then
        (pysplit '/' rp).getLastD "" else "")
      exclude_dirs exclude_files rp (FsTree.node nm files subs) =
    walkF (FsForest.size subs + 1) env rp
      (if (listdir (FsTree.node nm files subs)).contains INITPY = true then
        (pysplit '/' rp).getLastD "" else "")
      exclude_dirs exclude_files rp (FsTree.node nm files subs) := fun _ => rfl
  rw [h0]
  unfold walkF
  dsimp only
  rw [if_neg hex]
  have hpkg : (py_files_of files exclude_files).contains INITPY = false := by
    rw [Bool.eq_false_iff]
    intro hc
    have hmem := List.elem_iff.mp hc
    rw [py_files_of, mem_sortStr] at hmem
    exact hinit (List.elem_iff.mpr (List.mem_of_mem_filter hmem))
  rw [hpkg]
  simp only [Bool.false_eq_true, if_false, not_false_iff, true_and, ne_eq, not_true,
    and_false]

theorem C8_witness :
    (¬ is_excluded (normpath (abspath "/" "/r")) ([] : List String) = true) ∧
    (¬ (["m.py"] : List String).contains INITPY) ∧
    recurse_tree envTrivial (some (.node "r" ["m.py"] .nil)) "/" "/r" [] [] =
      .error "Expected it to be a package" :=
  ⟨by decide, by decide,
   C8_root_not_package_asserts envTrivial "/" "/r" [] [] "r" ["m.py"] .nil
     (by decide) (by decide)⟩

/-! ### Claim C7 (corrected) -/

/-- An environment whose files are all empty (0 bytes). -/
def envSmall : PyEnv :=
  { dirMembers := fun _ => some []
    fetch := fun _ _ => .importError
    getsize := fun _ => 0
    autoExamples := fun _ => "" }

/-- **C7, counterexample.**  The claim says a run with a missing root
path aborts *before any write to the destination — no destination
directory creation*.  On the concrete run below the root is missing and
the error is indeed raised, yet `main` has already created the
destination directory (`os.makedirs` runs first, unconditionally), so
the claim as stated is false. -/
theorem C7_counterexample :
    (main_entry envTrivial none "/" "/missing" [] [] false).madeDestdir = true ∧
    (main_entry envTrivial none "/" "/missing" [] [] false).result =
      .error "No such file or directory: /missing" := by
  constructor
  · decide
  · decide

/-- **C7, amended.** For every run whose root path is missing (or
unreadable), the error propagates to the caller and no output file is
written — but the destination directory has already been created
unconditionally on entry (`madeDestdir = !destdir_exists` always); and a
run whose root is a qualifying-package-free tree (a bare near-empty root
package) completes *silently* with an empty package list rather than
reporting a configuration error. -/
theorem C7_amended_config_error
    (env : PyEnv) :
    (∀ (cwd rootpath : String) (exD exF : List String) (de : Bool),
       (main_entry env none cwd rootpath exD exF de).result =
         .error ("No such file or directory: " ++ normpath (abspath cwd rootpath))) ∧
    (∀ (fs : Option FsTree) (cwd rootpath : String) (exD exF : List String) (de : Bool),
       (main_entry env fs cwd rootpath exD exF de).madeDestdir = !de) ∧
    (∀ (cwd rootpath : String) (exD exF : List String) (de : Bool)
        (nm : String) (files : List String) (subs : FsForest),
       py_files_of files exF = [INITPY] →
       kid_names_of (FsForest.toList subs) = [] →
       env.getsize (pjoin (normpath (abspath cwd rootpath)) INITPY) ≤ 2 →
       (main_entry env (some (.node nm files subs)) cwd rootpath exD exF de).result =
         .ok ([], [])) := by
  refine ⟨fun cwd rootpath exD exF de => rfl, fun fs cwd rootpath exD exF de => rfl, ?_⟩
  intro cwd rootpath exD exF de nm files subs h1 h2 h3
  show (recurse_tree env (some (.node nm files subs)) cwd rootpath
      (normalize_excludes rootpath exD) exF) = .ok ([], [])
  unfold recurse_tree
  dsimp only
  have h0 : ∀ rp rpk, walk env rp rpk (normalize_excludes rootpath exD) exF rp
      (FsTree.node nm files subs) =
    walkF (FsForest.size subs + 1) env rp rpk (normalize_excludes rootpath exD) exF rp
      (FsTree.node nm files subs) := fun _ _ => rfl
  rw [h0]
  unfold walkF
  dsimp only
  by_cases hex :
      is_excluded (normpath (abspath cwd rootpath)) (normalize_excludes rootpath exD) = true
  · rw [if_pos hex]
  · rw [if_neg hex]
    rw [h1]
    have hc : ([INITPY] : List String).contains INITPY = true := by decide
    rw [hc]
    simp only [if_true]
    rw [if_neg (by simp)]
    rw [h2]
    have hskip : shall_skip env.getsize
        (pjoin (normpath (abspath cwd rootpath)) INITPY) = true := by
      unfold shall_skip
      exact decide_eq_true h3
    simp only [hskip]
    rw [if_neg ?hc2]
    case hc2 =>
      simp only [not_or]
      refine ⟨by simp, ?_, by simp⟩
      show ¬ 1 < (INITPY :: ([INITPY] : List String).erase INITPY).length
      decide
    rfl

theorem C7_witness :
    ((py_files_of ["__init__.py"] [] = [INITPY]) ∧
      (kid_names_of (FsForest.toList .nil) = []) ∧
      envSmall.getsize (pjoin (normpath (abspath "/" "/r")) INITPY) ≤ 2) ∧
    (main_entry envSmall (some (.node "r" ["__init__.py"] .nil)) "/" "/r" [] [] false).result =
      .ok ([], []) :=
  ⟨⟨by decide, by decide, by decide⟩,
   (C7_amended_config_error envSmall).2.2 "/" "/r" [] [] false "r" ["__init__.py"] .nil
     (by decide) (by decide) (by decide)⟩

/-! ### Claim C4: helper lemmas -/

theorem string_data_inj {a b : String} (h : a.data = b.data) : a = b := by
  cases a; cases b; exact congrArg String.mk h

theorem makename_inj (full a b : String) (hfull : full ≠ "") (ha : a ≠ "") (hb : b ≠ "") :
    makename full a = makename full b → a = b := by
  unfold makename
  rw [if_pos hfull, if_pos ha, if_pos hfull, if_pos hb]
  intro h
  have hd := congrArg String.data h
  simp only [String.data_append] at hd
  exact string_data_inj (List.append_cancel_left hd)

theorem full_name_ne_empty (basename module : String) : basename ++ "." ++ module ≠ "" := by
  intro h
  have hd := congrArg String.data h
  simp [String.data_append] at hd

theorem create_member_file_fst (env : PyEnv) (fn : String) (m : MemberInfo)
    (r : String × String) (h : create_member_file env fn m = .ok r) :
    r.1 = makename fn m.name := by
  unfold create_member_file at h
  dsimp only at h
  cases hfs : find_shortest_import env.fetch fn m.name with
  | error e => rw [hfs] at h; cases h
  | ok s =>
    rw [hfs] at h
    cases h
    rfl

theorem mapExcept_ok_fst {α β γ : Type} (f : α → Except String (β × γ)) (h : α → β)
    (hf : ∀ a r, f a = .ok r → r.1 = h a) :
    ∀ (l : List α) (ws : List (β × γ)), mapExcept f l = .ok ws → ws.map Prod.fst = l.map h
  | [], ws => by
    intro hw
    unfold mapExcept at hw
    cases hw
    rfl
  | a :: l, ws => by
    intro hw
    unfold mapExcept at hw
    cases ha : f a with
    | error e => rw [ha] at hw; cases hw
    | ok b =>
      rw [ha] at hw
      cases hl : mapExcept f l with
      | error e => rw [hl] at hw; cases hw
      | ok bs =>
        rw [hl] at hw
        cases hw
        simp only [List.map_cons]
        rw [hf a b ha, mapExcept_ok_fst f h hf l bs hl]


/-! ### Claim C4 -/

/-- **C4.** For every documented module, a bound name is retained for
documentation — an entry in the package page's summary together with a
per-symbol stub file — iff its `__module__` attribute equals the
module's own dotted name (`basename ++ "." ++ module`) exactly and the
name has no private (`_`) prefix; in particular a name merely imported
into the module (such as `helper` re-exported from `pkg.util` into
`pkg.core`) produces no stub.  The name-`Nodup` and nonempty-name
hypotheses record what Python's `dir()` guarantees (a sorted duplicate-
free list of identifiers). -/
theorem C4_member_retention_iff
    (env : PyEnv) (module pkg basename : String) (L : List MemberInfo)
    (txt : String) (ws : List (String × String)) (m : MemberInfo)
    (hL : env.dirMembers (basename ++ "." ++ module) = some L)
    (hnd : (L.map MemberInfo.name).Nodup)
    (hne : ∀ x ∈ L, x.name ≠ "")
    (hok : format_directive env module pkg basename = .ok (txt, ws))
    (hm : m ∈ L) :
    ((ws.map Prod.fst).contains (makename (basename ++ "." ++ module) m.name) = true ↔
      (m.modAttr = some (basename ++ "." ++ module) ∧ py_startswith m.name "_" = false)) := by
  unfold format_directive at hok
  dsimp only at hok
  rw [hL] at hok
  dsimp only at hok
  cases hc : mapExcept (create_member_file env (basename ++ "." ++ module))
      (List.filter (fun x => x.kind == MKind.cls)
        (List.filter (fun x => x.modAttr == some (basename ++ "." ++ module)
          && !py_startswith x.name "_") L)) with
  | error e => rw [hc] at hok; cases hok
  | ok cws =>
  rw [hc] at hok
  cases hf : mapExcept (create_member_file env (basename ++ "." ++ module))
      (List.filter (fun x => x.kind == MKind.fn)
        (List.filter (fun x => x.modAttr == some (basename ++ "." ++ module)
          && !py_startswith x.name "_") L)) with
  | error e => rw [hf] at hok; cases hok
  | ok fws =>
  rw [hf] at hok
  cases hv : mapExcept (create_member_file env (basename ++ "." ++ module))
      (List.filter (fun x => x.kind == MKind.other)
        (List.filter (fun x => x.modAttr == some (basename ++ "." ++ module)
          && !py_startswith x.name "_") L)) with
  | error e => rw [hv] at hok; cases hok
  | ok vws =>
  rw [hv] at hok
  cases hok
  have h1 := mapExcept_ok_fst (create_member_file env (basename ++ "." ++ module))
    (fun x => makename (basename ++ "." ++ module) x.name)
    (fun a r hr => create_member_file_fst env (basename ++ "." ++ module) a r hr) _ cws hc
  have h2 := mapExcept_ok_fst (create_member_file env (basename ++ "." ++ module))
    (fun x => makename (basename ++ "." ++ module) x.name)
    (fun a r hr => create_member_file_fst env (basename ++ "." ++ module) a r hr) _ fws hf
  have h3 := mapExcept_ok_fst (create_member_file env (basename ++ "." ++ module))
    (fun x => makename (basename ++ "." ++ module) x.name)
    (fun a r hr => create_member_file_fst env (basename ++ "." ++ module) a r hr) _ vws hv
  rw [List.map_append, List.map_append, h1, h2, h3, ← List.map_append, ← List.map_append]
  rw [List.elem_iff]
  constructor
  · intro h
    rcases List.mem_map.mp h with ⟨m2, hm2, heq2⟩
    have hm2L : m2 ∈ L ∧ (m2.modAttr == some (basename ++ "." ++ module)
        && !py_startswith m2.name "_") = true := by
      rcases List.mem_append.mp hm2 with hca | hrest
      · rcases List.mem_append.mp hca with h4 | h4 <;>
          exact List.mem_filter.mp (List.mem_of_mem_filter h4)
      · exact List.mem_filter.mp (List.mem_of_mem_filter hrest)
    have hname : m2.name = m.name := by
      refine makename_inj (basename ++ "." ++ module) m2.name m.name
        (full_name_ne_empty basename module) (hne m2 hm2L.1) (hne m hm) heq2
    have hmm : m2 = m := List.inj_on_of_nodup_map hnd hm2L.1 hm hname
    rw [← hmm]
    have hp := hm2L.2
    rw [Bool.and_eq_true] at hp
    exact ⟨by have := hp.1; simpa using this, by have := hp.2; simpa using this⟩
  · intro ⟨hmod, hpriv⟩
    have hP : (m.modAttr == some (basename ++ "." ++ module)
        && !py_startswith m.name "_") = true := by
      rw [Bool.and_eq_true]
      exact ⟨by simpa using hmod, by simpa using hpriv⟩
    have hmf : m ∈ List.filter (fun x => x.modAttr == some (basename ++ "." ++ module)
        && !py_startswith x.name "_") L := List.mem_filter.mpr ⟨hm, hP⟩
    refine List.mem_map.mpr ⟨m, ?_, rfl⟩
    rw [List.mem_append, List.mem_append]
    cases hk : m.kind with
    | cls => exact Or.inl (Or.inl (List.mem_filter.mpr ⟨hmf, by simp [hk]⟩))
    | fn => exact Or.inl (Or.inr (List.mem_filter.mpr ⟨hmf, by simp [hk]⟩))
    | other => exact Or.inr (List.mem_filter.mpr ⟨hmf, by simp [hk]⟩)

/-- The claim's concrete scenario: documenting `pkg.core` whose binding
`helper` truly originates in `pkg.util`. -/
def env_c4 : PyEnv :=
  { dirMembers := fun n =>
      if n == "pkg.core" then
        some [⟨"helper", some "pkg.util", .fn⟩, ⟨"kept", some "pkg.core", .fn⟩]
      else none
    fetch := fun p s =>
      if p == "pkg.core" && s == "kept" then .found (some "pkg.core") else .importError
    getsize := fun _ => 10
    autoExamples := fun _ => "" }

theorem C4_witness :
    ∃ txt ws, format_directive env_c4 "core" "" "pkg" = .ok (txt, ws) ∧
      (ws.map Prod.fst).contains (makename "pkg.core" "helper") = false := by
  have hok : (format_directive env_c4 "core" "" "pkg").isOk = true := by decide
  cases h : format_directive env_c4 "core" "" "pkg" with
  | error e => rw [h] at hok; simp [Except.isOk, Except.toBool] at hok
  | ok p =>
    have h2 : format_directive env_c4 "core" "" "pkg" = .ok (p.1, p.2) := by rw [h]
    have hiff := C4_member_retention_iff env_c4 "core" "" "pkg"
      [⟨"helper", some "pkg.util", .fn⟩, ⟨"kept", some "pkg.core", .fn⟩]
      p.1 p.2 ⟨"helper", some "pkg.util", .fn⟩
      (by decide) (by decide) (by decide) h2 (by decide)
    refine ⟨p.1, p.2, rfl, ?_⟩
    have hval : (p.2.map Prod.fst).contains
        (makename ("pkg" ++ "." ++ "core") (MemberInfo.name ⟨"helper", some "pkg.util", .fn⟩))
        = false := by
      cases hb : (p.2.map Prod.fst).contains
          (makename ("pkg" ++ "." ++ "core") (MemberInfo.name ⟨"helper", some "pkg.util", .fn⟩)) with
      | true => exact absurd (hiff.mp hb) (by decide)
      | false => rfl
    have hs : ("pkg" ++ "." ++ "core" : String) = "pkg.core" := by decide
    rw [hs] at hval
    exact hval

/-! ### Claim C6 -/

/-- Every successful `create_package_file` run ends by writing the
package page itself, named `makename master_package subroot`. -/
theorem create_package_file_last
    (env : PyEnv) (root mp subroot : String) (py_files subs excludes : List String)
    (isfile : String → Bool) (l : List (String × String))
    (h : create_package_file env root mp subroot py_files subs excludes isfile = .ok l) :
    ∃ w t, l = w ++ [(makename mp subroot, t)] := by
  unfold create_package_file at h
  dsimp only at h
  split at h
  · cases h
  · next text writes heq =>
    cases h
    exact ⟨writes, _, rfl⟩


/-- **C6.** A package directory whose marker file is at most 2 bytes,
with no other module file to document and no subdirectory surviving the
hidden/private filter, produces no output file and no entry in the
returned package list; conversely, a package with surviving
subdirectories, or more than one module file, or a marker file larger
than 2 bytes, is emitted: its dotted name is in the returned list and
its package page is among the written files. -/
theorem C6_package_emission
    (env : PyEnv) (rootpath root_package : String) (exD exF : List String)
    (curPath nm : String) (files : List String) (subs : FsForest) :
    (py_files_of files exF = [INITPY] →
     kid_names_of (FsForest.toList subs) = [] →
     env.getsize (pjoin curPath INITPY) ≤ 2 →
     walk env rootpath root_package exD exF curPath (.node nm files subs) = .ok ([], [])) ∧
    (∀ ts ws,
     ¬ is_excluded curPath exD = true →
     (py_files_of files exF).contains INITPY = true →
     (kid_names_of (FsForest.toList subs) ≠ [] ∨ 1 < (py_files_of files exF).length ∨
       ¬ shall_skip env.getsize (pjoin curPath INITPY) = true) →
     walk env rootpath root_package exD exF curPath (.node nm files subs) = .ok (ts, ws) →
     (makename root_package
        (py_replace_sep_dot (py_lstrip_sep (py_drop curPath (py_len rootpath)))) ∈ ts ∧
      ∃ text, (makename root_package
        (py_replace_sep_dot (py_lstrip_sep (py_drop curPath (py_len rootpath)))), text) ∈ ws)) := by
  have h0 : walk env rootpath root_package exD exF curPath (.node nm files subs) =
      walkF (FsForest.size subs + 1) env rootpath root_package exD exF curPath
        (.node nm files subs) := rfl
  constructor
  · intro h1 h2 h3
    rw [h0]
    unfold walkF
    dsimp only
    by_cases hex : is_excluded curPath exD = true
    · rw [if_pos hex]
    · rw [if_neg hex]
      rw [h1]
      have hc : ([INITPY] : List String).contains INITPY = true := by decide
      rw [hc]
      simp only [if_true]
      rw [if_neg (by simp)]
      rw [h2]
      have hskip : shall_skip env.getsize (pjoin curPath INITPY) = true := by
        unfold shall_skip
        exact decide_eq_true h3
      simp only [hskip]
      rw [if_neg ?hc2]
      case hc2 =>
        simp only [not_or]
        refine ⟨by simp, ?_, by simp⟩
        show ¬ 1 < (INITPY :: ([INITPY] : List String).erase INITPY).length
        decide
      rfl
  · intro ts ws hex hpkg hcond hok
    rw [h0] at hok
    unfold walkF at hok
    dsimp only at hok
    rw [if_neg hex, hpkg] at hok
    simp only [if_true] at hok
    rw [if_neg (by simp)] at hok
    have hlen : (INITPY :: (py_files_of files exF).erase INITPY).length =
        (py_files_of files exF).length := by
      have hmem : INITPY ∈ py_files_of files exF := List.elem_iff.mp hpkg
      have hpos : 0 < (py_files_of files exF).length := List.length_pos_of_mem hmem
      rw [List.length_cons, List.length_erase_of_mem hmem]
      omega
    rw [if_pos ?hcond2] at hok
    case hcond2 =>
      rcases hcond with h | h | h
      · exact Or.inl h
      · exact Or.inr (Or.inl (by rw [hlen]; exact h))
      · exact Or.inr (Or.inr h)
    split at hok
    · cases hok
    · next ws1 hcreate =>
      split at hok
      · cases hok
      · next ts1 cws hnames =>
        cases hok
        refine ⟨List.mem_cons_self _ _, ?_⟩
        rcases create_package_file_last env curPath root_package
            (py_replace_sep_dot (py_lstrip_sep (py_drop curPath (py_len rootpath))))
            (INITPY :: (py_files_of files exF).erase INITPY)
            (kid_names_of (FsForest.toList subs)) exD
            (isfile_of curPath (FsForest.toList subs)) ws1 hcreate with ⟨w, t, hw⟩
        refine ⟨t, ?_⟩
        rw [hw]
        simp

theorem C6_witness :
    (walk envSmall "/r" "r" [] [] "/r/p" (.node "p" ["__init__.py"] .nil) = .ok ([], [])) ∧
    (∃ ts ws, walk envTrivial "/r" "r" [] [] "/r" (.node "r" ["__init__.py"] .nil) = .ok (ts, ws) ∧
      makename "r" (py_replace_sep_dot (py_lstrip_sep (py_drop "/r" (py_len "/r")))) ∈ ts ∧
      ∃ text, (makename "r" (py_replace_sep_dot (py_lstrip_sep (py_drop "/r" (py_len "/r")))),
        text) ∈ ws) := by
  constructor
  · exact (C6_package_emission envSmall "/r" "r" [] [] "/r/p" "p" ["__init__.py"] .nil).1
      (by decide) (by decide) (by decide)
  · have hok : (walk envTrivial "/r" "r" [] [] "/r" (.node "r" ["__init__.py"] .nil)).isOk = true := by
      decide
    cases h : walk envTrivial "/r" "r" [] [] "/r" (.node "r" ["__init__.py"] .nil) with
    | error e => rw [h] at hok; simp [Except.isOk, Except.toBool] at hok
    | ok p =>
      have hc := (C6_package_emission envTrivial "/r" "r" [] [] "/r" "r" ["__init__.py"] .nil).2 p.1 p.2
        (by decide) (by decide) (Or.inr (Or.inr (by decide))) (by rw [h])
      exact ⟨p.1, p.2, rfl, hc.1, hc.2⟩

/-! ### Claim C9: helper lemmas -/

theorem mapExcept_congr {α β : Type} (f g : α → Except String β) (h : ∀ a, f a = g a) :
    ∀ l, mapExcept f l = mapExcept g l
  | [] => rfl
  | a :: l => by
    unfold mapExcept
    rw [h a, mapExcept_congr f g h l]

/-- The member files written by `format_directive` depend only on the
member listing of `"brian2." ++ module`, the fetch oracle, and the
example finder — not on the `package` argument and not on any other
module's listing. -/
theorem format_directive_writes_congr (env1 env2 : PyEnv) (module pkg1 pkg2 : String)
    (hdm : env1.dirMembers ("brian2" ++ "." ++ module) = env2.dirMembers ("brian2" ++ "." ++ module))
    (hfetch : env1.fetch = env2.fetch)
    (hauto : env1.autoExamples = env2.autoExamples) :
    Except.map Prod.snd (format_directive env1 module pkg1) =
      Except.map Prod.snd (format_directive env2 module pkg2) := by
  have hcm : ∀ m, create_member_file env1 ("brian2" ++ "." ++ module) m =
      create_member_file env2 ("brian2" ++ "." ++ module) m := by
    intro m
    unfold create_member_file
    rw [hfetch, hauto]
  unfold format_directive
  dsimp only
  rw [hdm]
  cases hd : env2.dirMembers ("brian2" ++ "." ++ module) with
  | none => rfl
  | some L =>
    dsimp only
    rw [mapExcept_congr _ _ hcm, mapExcept_congr _ _ hcm, mapExcept_congr _ _ hcm]
    cases mapExcept (create_member_file env2 ("brian2" ++ "." ++ module))
        (List.filter (fun x => x.kind == MKind.cls)
          (List.filter (fun x => x.modAttr == some ("brian2" ++ "." ++ module)
            && !py_startswith x.name "_") L)) with
    | error e => rfl
    | ok cws =>
      cases mapExcept (create_member_file env2 ("brian2" ++ "." ++ module))
          (List.filter (fun x => x.kind == MKind.fn)
            (List.filter (fun x => x.modAttr == some ("brian2" ++ "." ++ module)
              && !py_startswith x.name "_") L)) with
      | error e => rfl
      | ok fws =>
        cases mapExcept (create_member_file env2 ("brian2" ++ "." ++ module))
            (List.filter (fun x => x.kind == MKind.other)
              (List.filter (fun x => x.modAttr == some ("brian2" ++ "." ++ module)
                && !py_startswith x.name "_") L)) with
        | error e => rfl
        | ok vws => rfl

/-- Relate two fallible results: identical errors, or related values. -/
def exceptRel {s1 s2 : Type} (R : s1 → s2 → Prop) :
    Except String s1 → Except String s2 → Prop
  | .error e1, .error e2 => e1 = e2
  | .ok t1, .ok t2 => R t1 t2
  | _, _ => False

/-- Two fallible folds whose steps preserve a relation stay related:
they raise identical errors or end in related accumulators. -/
theorem foldExcept_rel {s1 s2 α : Type} (R : s1 → s2 → Prop)
    (f : s1 → α → Except String s1) (g : s2 → α → Except String s2)
    (hstep : ∀ a1 a2 a, R a1 a2 → exceptRel R (f a1 a) (g a2 a)) :
    ∀ (l : List α) (a1 : s1) (a2 : s2), R a1 a2 →
      exceptRel R (foldExcept f a1 l) (foldExcept g a2 l)
  | [], a1, a2, hr => hr
  | a :: l, a1, a2, hr => by
    have hs := hstep a1 a2 a hr
    unfold foldExcept
    cases h1 : f a1 a with
    | error e1 =>
      cases h2 : g a2 a with
      | error e2 => rw [h1, h2] at hs; exact hs
      | ok t2 => rw [h1, h2] at hs; exact hs.elim
    | ok t1 =>
      cases h2 : g a2 a with
      | error e2 => rw [h1, h2] at hs; exact hs.elim
      | ok t2 =>
        rw [h1, h2] at hs
        exact foldExcept_rel R f g hstep l t1 t2 hs

theorem create_package_file_mp_congr
    (env : PyEnv) (root mp1 mp2 subroot : String)
    (py_files subs excludes : List String) (isfile : String → Bool) :
    Except.map List.dropLast
        (create_package_file env root mp1 subroot py_files subs excludes isfile) =
      Except.map List.dropLast
        (create_package_file env root mp2 subroot py_files subs excludes isfile) := by
  unfold create_package_file
  dsimp only
  have hrel := foldExcept_rel
    (fun (a1 a2 : String × List (String × String)) => a1.2 = a2.2)
    (fun acc py_file =>
      if shall_skip env.getsize (pjoin root py_file) = true then Except.ok acc
      else
        match format_directive env
            (if (py_file == INITPY && subroot != "") = true then subroot
             else makename subroot (splitext py_file).1) mp1 with
        | Except.error e => Except.error e
        | Except.ok (dirText, mws) =>
          Except.ok ((acc.1 ++
              (if ¬(py_file == INITPY) = true then
                format_heading 2 (":mod:`" ++ (splitext py_file).1 ++ "` module")
               else "")) ++ dirText ++ "\n", acc.2 ++ mws))
    (fun acc py_file =>
      if shall_skip env.getsize (pjoin root py_file) = true then Except.ok acc
      else
        match format_directive env
            (if (py_file == INITPY && subroot != "") = true then subroot
             else makename subroot (splitext py_file).1) mp2 with
        | Except.error e => Except.error e
        | Except.ok (dirText, mws) =>
          Except.ok ((acc.1 ++
              (if ¬(py_file == INITPY) = true then
                format_heading 2 (":mod:`" ++ (splitext py_file).1 ++ "` module")
               else "")) ++ dirText ++ "\n", acc.2 ++ mws))
    ?hstep py_files
    (format_heading 1 (path_split_tail root ++ " package"), [])
    (format_heading 1 (path_split_tail root ++ " package"), []) rfl
  case hstep =>
    intro a1 a2 a hr
    dsimp only
    by_cases hskip : shall_skip env.getsize (pjoin root a) = true
    · rw [if_pos hskip, if_pos hskip]
      exact hr
    · rw [if_neg hskip, if_neg hskip]
      have hsnd := format_directive_writes_congr env env
        (if (a == INITPY && subroot != "") = true then subroot
         else makename subroot (splitext a).1) mp1 mp2 rfl rfl rfl
      cases h1 : format_directive env
          (if (a == INITPY && subroot != "") = true then subroot
           else makename subroot (splitext a).1) mp1 with
      | error e1 =>
        cases h2 : format_directive env
            (if (a == INITPY && subroot != "") = true then subroot
             else makename subroot (splitext a).1) mp2 with
        | error e2 =>
          rw [h1, h2] at hsnd
          simpa [Except.map, exceptRel] using hsnd
        | ok p2 =>
          rw [h1, h2] at hsnd
          simp [Except.map] at hsnd
      | ok p1 =>
        cases h2 : format_directive env
            (if (a == INITPY && subroot != "") = true then subroot
             else makename subroot (splitext a).1) mp2 with
        | error e2 =>
          rw [h1, h2] at hsnd
          simp [Except.map] at hsnd
        | ok p2 =>
          rw [h1, h2] at hsnd
          simp only [Except.map, Except.ok.injEq] at hsnd
          obtain ⟨d1, m1⟩ := p1
          obtain ⟨d2, m2⟩ := p2
          simp only at hsnd
          simp only [exceptRel, hr, hsnd]
  · revert hrel
    cases hf1 : foldExcept
        (fun acc py_file =>
          if shall_skip env.getsize (pjoin root py_file) = true then Except.ok acc
          else
            match format_directive env
                (if (py_file == INITPY && subroot != "") = true then subroot
                 else makename subroot (splitext py_file).1) mp1 with
            | Except.error e => Except.error e
            | Except.ok (dirText, mws) =>
              Except.ok ((acc.1 ++
                  (if ¬(py_file == INITPY) = true then
                    format_heading 2 (":mod:`" ++ (splitext py_file).1 ++ "` module")
                   else "")) ++ dirText ++ "\n", acc.2 ++ mws))
        (format_heading 1 (path_split_tail root ++ " package"), []) py_files with
    | error e1 =>
      cases hf2 : foldExcept
          (fun acc py_file =>
            if shall_skip env.getsize (pjoin root py_file) = true then Except.ok acc
            else
              match format_directive env
                  (if (py_file == INITPY && subroot != "") = true then subroot
                   else makename subroot (splitext py_file).1) mp2 with
              | Except.error e => Except.error e
              | Except.ok (dirText, mws) =>
                Except.ok ((acc.1 ++
                    (if ¬(py_file == INITPY) = true then
                      format_heading 2 (":mod:`" ++ (splitext py_file).1 ++ "` module")
                     else "")) ++ dirText ++ "\n", acc.2 ++ mws))
          (format_heading 1 (path_split_tail root ++ " package"), []) py_files with
      | error e2 =>
        intro hrel
        simp only [exceptRel] at hrel
        rw [hrel]
      | ok t2 =>
        intro hrel
        exact hrel.elim
    | ok t1 =>
      cases hf2 : foldExcept
          (fun acc py_file =>
            if shall_skip env.getsize (pjoin root py_file) = true then Except.ok acc
            else
              match format_directive env
                  (if (py_file == INITPY && subroot != "") = true then subroot
                   else makename subroot (splitext py_file).1) mp2 with
              | Except.error e => Except.error e
              | Except.ok (dirText, mws) =>
                Except.ok ((acc.1 ++
                    (if ¬(py_file == INITPY) = true then
                      format_heading 2 (":mod:`" ++ (splitext py_file).1 ++ "` module")
                     else "")) ++ dirText ++ "\n", acc.2 ++ mws))
          (format_heading 1 (path_split_tail root ++ " package"), []) py_files with
      | error e2 =>
        intro hrel
        exact hrel.elim
      | ok t2 =>
        intro hrel
        obtain ⟨text1, writes1⟩ := t1
        obtain ⟨text2, writes2⟩ := t2
        simp only [exceptRel] at hrel
        subst hrel
        simp [Except.map]

/-! ### Claim C9 -/

/-- **C9.** The dynamic load and member enumeration for every documented
module happen under the dotted name `"brian2." ++ module` — the
`basename` parameter defaults to the fixed string `"brian2"` and no
caller overrides it — independently of the `master_package` actually
passed: (a) the member stubs produced by `format_directive` are fully
determined by the member listing of `"brian2." ++ module` (plus the
fetch/example oracles), whatever the `package` argument is; (b) the
member-stub writes of `create_package_file` (everything except the
final package page) do not change when `master_package` changes. -/
theorem C9_member_enumeration_under_brian2 :
    (∀ (env1 env2 : PyEnv) (module pkg1 pkg2 : String),
       env1.dirMembers ("brian2" ++ "." ++ module) =
         env2.dirMembers ("brian2" ++ "." ++ module) →
       env1.fetch = env2.fetch →
       env1.autoExamples = env2.autoExamples →
       Except.map Prod.snd (format_directive env1 module pkg1) =
         Except.map Prod.snd (format_directive env2 module pkg2)) ∧
    (∀ (env : PyEnv) (root mp1 mp2 subroot : String)
        (py_files subs excludes : List String) (isfile : String → Bool),
       Except.map List.dropLast
           (create_package_file env root mp1 subroot py_files subs excludes isfile) =
         Except.map List.dropLast
           (create_package_file env root mp2 subroot py_files subs excludes isfile)) :=
  ⟨format_directive_writes_congr, create_package_file_mp_congr⟩

/-- Two environments that agree on module `brian2.m` but disagree
everywhere else. -/
def env_c9a : PyEnv :=
  { dirMembers := fun n => if n == "brian2.m" then some [⟨"x", some "brian2.m", .other⟩]
      else some []
    fetch := fun p s => if p == "brian2" && s == "x" then .found (some "brian2.m")
      else .importError
    getsize := fun _ => 10
    autoExamples := fun _ => "" }

def env_c9b : PyEnv :=
  { dirMembers := fun n => if n == "brian2.m" then some [⟨"x", some "brian2.m", .other⟩]
      else none
    fetch := fun p s => if p == "brian2" && s == "x" then .found (some "brian2.m")
      else .importError
    getsize := fun _ => 10
    autoExamples := fun _ => "" }

theorem C9_witness :
    Except.map Prod.snd (format_directive env_c9a "m" "pkgA") =
      Except.map Prod.snd (format_directive env_c9b "m" "pkgB") :=
  C9_member_enumeration_under_brian2.1 env_c9a env_c9b "m" "pkgA" "pkgB"
    (by decide) rfl rfl
